import Mathlib

/-!
Verification development for the MCP chat application.

This file gives a shallow embedding, in Lean, of the connection-registry and
chat-orchestration core of the repository:

* `src/lib/mcp/global-client-manager.ts` (`GlobalMcpClientManager`),
* `src/lib/mcp/client-manager.ts` (`McpClientManager`),
* `src/app/api/chat/route.ts` (the Claude and Gemini chat handlers),
* `src/contexts/mcp-context.tsx` (`exportConfig` / `importConfig`),
* the shared data model of `src/lib/mcp/types.ts`.

Conventions of the embedding:

* JavaScript `Map` objects are modelled as functions `String → Option α`
  with pointwise `set` / `delete`.
* Asynchronous external effects (opening a transport channel, the remote
  server answering a capability-listing or tool-call request, a model
  provider answering a message) are modelled as explicit inputs: a
  `ConnectOutcome` describes what the environment does during one connect
  attempt, a `ClientBehavior` describes how the remote server answers
  requests over an established channel, and a provider is a function from
  the submitted message list to its response.  Fallible operations return
  `Except String α` where the JavaScript throws.
* JSON documents are modelled by the inductive `Json`.  The platform
  builtins `JSON.stringify` / `JSON.parse` (text serialization of
  documents) are treated as an external library: the model works directly
  with the documents they serialize and parse, and `Json.stringify` below
  is a faithful executable rendering used where the code embeds a
  serialized item into a text blob.
-/

deriving instance DecidableEq for Except

mutual

/-- A JSON document: the values `JSON.parse` can produce and
`JSON.stringify` consumes.  Object fields are kept in insertion order.
Arrays and object field lists are mutual inductives (rather than `List`)
so that equality and recursion stay structural. -/
inductive Json where
  | null : Json
  | bool (b : Bool) : Json
  | num (lit : String) : Json
  | str (s : String) : Json
  | arr (items : JsonList) : Json
  | obj (fields : JsonFields) : Json
deriving DecidableEq

/-- The elements of a JSON array. -/
inductive JsonList where
  | nil : JsonList
  | cons (hd : Json) (tl : JsonList) : JsonList
deriving DecidableEq

/-- The fields of a JSON object, in insertion order. -/
inductive JsonFields where
  | nil : JsonFields
  | cons (key : String) (val : Json) (tl : JsonFields) : JsonFields
deriving DecidableEq

end

namespace JsonList

/-- View a JSON array's elements as a Lean list. -/
def toList : JsonList → List Json
  | nil => []
  | cons x xs => x :: toList xs

/-- Build a JSON array's elements from a Lean list. -/
def ofList : List Json → JsonList
  | [] => nil
  | x :: xs => cons x (ofList xs)

theorem toList_ofList (l : List Json) : toList (ofList l) = l := by
  induction l with
  | nil => rfl
  | cons x xs ih => simp [ofList, toList, ih]

end JsonList

namespace JsonFields

/-- First field with the given key, as JavaScript property access on a
parsed JSON object. -/
def lookup : JsonFields → String → Option Json
  | nil, _ => none
  | cons k v tl, key => if k = key then some v else lookup tl key

/-- Build an object field list from a Lean list of key-value pairs. -/
def ofList : List (String × Json) → JsonFields
  | [] => nil
  | (k, v) :: xs => cons k v (ofList xs)

end JsonFields

namespace Json

/-- Look up a field of a JSON object (`undefined` for non-objects or
missing keys, like JavaScript property access on parsed JSON). -/
def getField : Json → String → Option Json
  | obj fields, key => fields.lookup key
  | _, _ => none

/-- The `Array.isArray` test. -/
def isArr : Json → Bool
  | arr _ => true
  | _ => false

/-- String escaping as performed by `JSON.stringify` (quote, backslash and
the common control characters; other characters pass through). -/
def escapeChar (c : Char) : String :=
  if c = '"' then "\\\""
  else if c = '\\' then "\\\\"
  else if c = '\n' then "\\n"
  else if c = '\t' then "\\t"
  else if c = '\r' then "\\r"
  else String.mk [c]

/-- Render a JSON string literal with surrounding quotes. -/
def quote (s : String) : String :=
  "\"" ++ String.join (s.data.map escapeChar) ++ "\""

end Json

mutual

/-- Compact rendering of a document, as `JSON.stringify` with no indent
argument produces. -/
def Json.stringify : Json → String
  | .null => "null"
  | .bool true => "true"
  | .bool false => "false"
  | .num lit => lit
  | .str s => Json.quote s
  | .arr items => "[" ++ JsonList.stringifyItems items ++ "]"
  | .obj fields => "\x7b" ++ JsonFields.stringifyFields fields ++ "\x7d"

/-- Comma-separated rendering of array elements. -/
def JsonList.stringifyItems : JsonList → String
  | .nil => ""
  | .cons x .nil => Json.stringify x
  | .cons x (.cons y ys) =>
      Json.stringify x ++ "," ++ JsonList.stringifyItems (.cons y ys)

/-- Comma-separated rendering of object fields. -/
def JsonFields.stringifyFields : JsonFields → String
  | .nil => ""
  | .cons k v .nil => Json.quote k ++ ":" ++ Json.stringify v
  | .cons k v (.cons k' v' tl) =>
      Json.quote k ++ ":" ++ Json.stringify v ++ "," ++
        JsonFields.stringifyFields (.cons k' v' tl)

end

namespace Mcp

/-- `TransportType` from `types.ts`: `"stdio" | "streamable-http" | "sse"`. -/
inductive TransportType where
  | stdio
  | streamableHttp
  | sse
deriving DecidableEq

/-- `McpServerConfig` from `types.ts`. -/
structure McpServerConfig where
  id : String
  name : String
  transport : TransportType
  command : Option String := none
  args : Option (List String) := none
  env : Option (List (String × String)) := none
  url : Option String := none
  headers : Option (List (String × String)) := none
deriving DecidableEq

/-- `ConnectionStatus` from `types.ts`. -/
inductive ConnectionStatus where
  | disconnected
  | connecting
  | connected
  | error
deriving DecidableEq

/-- `ToolInfo` from `types.ts`. -/
structure ToolInfo where
  name : String
  description : Option String := none
  inputSchema : Option Json := none
deriving DecidableEq

/-- `PromptArgument` from `types.ts`. -/
structure PromptArgument where
  name : String
  description : Option String := none
  required : Option Bool := none
deriving DecidableEq

/-- `PromptInfo` from `types.ts`. -/
structure PromptInfo where
  name : String
  description : Option String := none
  arguments : Option (List PromptArgument) := none
deriving DecidableEq

/-- `ResourceInfo` from `types.ts`. -/
structure ResourceInfo where
  uri : String
  name : String
  description : Option String := none
  mimeType : Option String := none
deriving DecidableEq

/-- One element of `ToolCallResponse.content` from `types.ts`. -/
structure ContentItem where
  type : String
  text : Option String := none
  data : Option String := none
  mimeType : Option String := none
deriving DecidableEq

/-- `ToolCallResponse` from `types.ts`. -/
structure ToolCallResponse where
  content : List ContentItem
  isError : Option Bool := none
deriving DecidableEq

/-- One message of `PromptGetResponse.messages` from `types.ts`. -/
structure PromptMessage where
  role : String
  contentType : String
  contentText : Option String := none
deriving DecidableEq

/-- `PromptGetResponse` from `types.ts`. -/
structure PromptGetResponse where
  description : Option String := none
  messages : List PromptMessage
deriving DecidableEq

/-- One element of `ResourceReadResponse.contents` from `types.ts`. -/
structure ResourceContent where
  uri : String
  mimeType : Option String := none
  text : Option String := none
  blob : Option String := none
deriving DecidableEq

/-- `ResourceReadResponse` from `types.ts`. -/
structure ResourceReadResponse where
  contents : List ResourceContent
deriving DecidableEq

/-- `McpServerState` from `types.ts`: the per-server snapshot held in the
registry's state table.  Optional TypeScript fields are `Option`s; an
absent field is `none`. -/
structure McpServerState where
  config : McpServerConfig
  status : ConnectionStatus
  error : Option String := none
  tools : Option (List ToolInfo) := none
  prompts : Option (List PromptInfo) := none
  resources : Option (List ResourceInfo) := none
deriving DecidableEq

/-- How an established MCP client channel answers requests: the remote
side of `client.callTool`, `client.getPrompt` and `client.readResource`.
An `Except.error` models the awaited promise rejecting. -/
structure ClientBehavior where
  callToolFn : String → Json → Except String ToolCallResponse
  getPromptFn : String → Option (List (String × String)) → Except String PromptGetResponse
  readResourceFn : String → Except String ResourceReadResponse

/-- The `ConnectedClient` record stored in the managers' `clients` map. -/
structure ConnectedClient where
  client : ClientBehavior
  transport : TransportType
  config : McpServerConfig

/-- Everything the environment decides during one `connect` attempt:
whether `client.connect(transport)` succeeds (URL parsing failures of the
network transports are folded into this as well), what each of the three
capability-listing requests returns, and how the resulting channel will
answer later requests. -/
structure ConnectOutcome where
  openResult : Except String Unit
  toolsResult : Except String (List ToolInfo)
  promptsResult : Except String (List PromptInfo)
  resourcesResult : Except String (List ResourceInfo)
  behavior : ClientBehavior

/-- The shared mutable tables of both manager variants (`GlobalMcpState`
in `global-client-manager.ts`, the two private fields of
`McpClientManager`): JavaScript `Map`s modelled as partial functions. -/
structure McpState where
  clients : String → Option ConnectedClient
  states : String → Option McpServerState

/-- The empty registry (fresh `Map`s). -/
def McpState.empty : McpState := ⟨fun _ => none, fun _ => none⟩

/-- `Map.set` on a modelled map. -/
def setMap (m : String → Option α) (k : String) (v : α) : String → Option α :=
  fun k' => if k' = k then some v else m k'

/-- `Map.delete` on a modelled map. -/
def delMap (m : String → Option α) (k : String) : String → Option α :=
  fun k' => if k' = k then none else m k'

end Mcp

namespace Mcp

/-- The result list a capability fetch stores: `fetchTools`,
`fetchPrompts` and `fetchResources` each wrap the listing request in
`try { ... } catch { return [] }`, so a per-kind failure degrades to the
empty list and never propagates. -/
def fetchResult (r : Except String (List α)) : List α :=
  match r with
  | .ok l => l
  | .error _ => []

/-- The transport-field validation performed by the `switch` at the top of
both managers' `connect`: STDIO requires `command`, the two network
transports require `url`; the thrown messages are those of the source. -/
def validateTransport (config : McpServerConfig) : Except String Unit :=
  match config.transport with
  | .stdio =>
      match config.command with
      | none => .error "Command is required for STDIO transport"
      | some _ => .ok ()
  | .streamableHttp =>
      match config.url with
      | none => .error "URL is required for Streamable HTTP transport"
      | some _ => .ok ()
  | .sse =>
      match config.url with
      | none => .error "URL is required for SSE transport"
      | some _ => .ok ()

end Mcp

namespace GlobalMcpClientManager

open Mcp

/-- `updateState` of `global-client-manager.ts`: point update of the
states table. -/
def updateState (s : McpState) (serverId : String) (st : McpServerState) : McpState :=
  { s with states := setMap s.states serverId st }

/-- `disconnect` of `global-client-manager.ts`: close and drop the live
channel if present (a close failure is logged, not propagated), then, if
a snapshot exists, normalize it to `disconnected` with the capability
lists cleared (the spread `...currentState` keeps the remaining fields,
including a previous `error` message). -/
def disconnect (s : McpState) (serverId : String) : McpState :=
  let s1 :=
    match s.clients serverId with
    | some _ => { s with clients := delMap s.clients serverId }
    | none => s
  match s1.states serverId with
  | some currentState =>
      updateState s1 serverId
        { currentState with
          status := .disconnected
          tools := none
          prompts := none
          resources := none }
  | none => s1

/-- The body of `connect` after the already-connected guard: set the
snapshot to `connecting`, validate the transport fields, open the
channel, store the client, fetch the three capability lists (each
failing soft to `[]`), and store the `connected` snapshot; on a
validation or open failure store an `error` snapshot and rethrow. -/
def connectBody (s : McpState) (config : McpServerConfig) (o : ConnectOutcome) :
    McpState × Except String McpServerState :=
  let s1 := updateState s config.id { config := config, status := .connecting }
  match validateTransport config with
  | .error e =>
      (updateState s1 config.id { config := config, status := .error, error := some e },
       .error e)
  | .ok _ =>
      match o.openResult with
      | .error e =>
          (updateState s1 config.id { config := config, status := .error, error := some e },
           .error e)
      | .ok _ =>
          let s2 := { s1 with
            clients := setMap s1.clients config.id
              ⟨o.behavior, config.transport, config⟩ }
          let st : McpServerState :=
            { config := config
              status := .connected
              tools := some (fetchResult o.toolsResult)
              prompts := some (fetchResult o.promptsResult)
              resources := some (fetchResult o.resourcesResult) }
          (updateState s2 config.id st, .ok st)

/-- `connect` of `global-client-manager.ts`: if the id has a live client
and its snapshot says `connected`, return the existing snapshot
unchanged; if it has a live client in any other state, disconnect first;
then run the connect body. -/
def connect (s : McpState) (config : McpServerConfig) (o : ConnectOutcome) :
    McpState × Except String McpServerState :=
  match s.clients config.id with
  | some _ =>
      match s.states config.id with
      | some existingState =>
          if existingState.status = .connected then (s, .ok existingState)
          else connectBody (disconnect s config.id) config o
      | none => connectBody (disconnect s config.id) config o
  | none => connectBody s config o

/-- `getClient` of `global-client-manager.ts`. -/
def getClient (s : McpState) (serverId : String) : Option ClientBehavior :=
  (s.clients serverId).map (fun c => c.client)

/-- `callTool` of `global-client-manager.ts`: requires a live client for
the id (throwing the not-connected message otherwise) and passes the
request through over the channel; the state table is never written. -/
def callTool (s : McpState) (serverId toolName : String) (args : Json) :
    McpState × Except String ToolCallResponse :=
  match s.clients serverId with
  | none => (s, .error ("Server " ++ serverId ++ " is not connected"))
  | some connected => (s, connected.client.callToolFn toolName args)

/-- `getPrompt` of `global-client-manager.ts`: same guard and
pass-through shape as `callTool`. -/
def getPrompt (s : McpState) (serverId promptName : String)
    (args : Option (List (String × String))) :
    McpState × Except String PromptGetResponse :=
  match s.clients serverId with
  | none => (s, .error ("Server " ++ serverId ++ " is not connected"))
  | some connected => (s, connected.client.getPromptFn promptName args)

/-- `readResource` of `global-client-manager.ts`: same guard and
pass-through shape as `callTool`. -/
def readResource (s : McpState) (serverId uri : String) :
    McpState × Except String ResourceReadResponse :=
  match s.clients serverId with
  | none => (s, .error ("Server " ++ serverId ++ " is not connected"))
  | some connected => (s, connected.client.readResourceFn uri)

/-- `getState` of `global-client-manager.ts`: pure read of the snapshot
table. -/
def getState (s : McpState) (serverId : String) : Option McpServerState :=
  s.states serverId

/-- `getStatus` of `global-client-manager.ts`: the snapshot's status,
defaulting to `disconnected` when there is no snapshot. -/
def getStatus (s : McpState) (serverId : String) : ConnectionStatus :=
  match s.states serverId with
  | some st => st.status
  | none => .disconnected

/-- `isConnected` of `global-client-manager.ts`: a live client exists and
the snapshot's status (undefined when absent) equals `connected`. -/
def isConnected (s : McpState) (serverId : String) : Bool :=
  (s.clients serverId).isSome &&
    match s.states serverId with
    | some st => decide (st.status = .connected)
    | none => false

end GlobalMcpClientManager

namespace McpClientManager

open Mcp

/-- `updateState` of `client-manager.ts` (line-identical to the global
variant's). -/
def updateState (s : McpState) (serverId : String) (st : McpServerState) : McpState :=
  { s with states := setMap s.states serverId st }

/-- `disconnect` of `client-manager.ts` (line-identical to the global
variant's, minus logging). -/
def disconnect (s : McpState) (serverId : String) : McpState :=
  let s1 :=
    match s.clients serverId with
    | some _ => { s with clients := delMap s.clients serverId }
    | none => s
  match s1.states serverId with
  | some currentState =>
      updateState s1 serverId
        { currentState with
          status := .disconnected
          tools := none
          prompts := none
          resources := none }
  | none => s1

/-- The body of `connect` of `client-manager.ts` after its
already-present guard; line-identical to the global variant's body. -/
def connectBody (s : McpState) (config : McpServerConfig) (o : ConnectOutcome) :
    McpState × Except String McpServerState :=
  let s1 := updateState s config.id { config := config, status := .connecting }
  match validateTransport config with
  | .error e =>
      (updateState s1 config.id { config := config, status := .error, error := some e },
       .error e)
  | .ok _ =>
      match o.openResult with
      | .error e =>
          (updateState s1 config.id { config := config, status := .error, error := some e },
           .error e)
      | .ok _ =>
          let s2 := { s1 with
            clients := setMap s1.clients config.id
              ⟨o.behavior, config.transport, config⟩ }
          let st : McpServerState :=
            { config := config
              status := .connected
              tools := some (fetchResult o.toolsResult)
              prompts := some (fetchResult o.promptsResult)
              resources := some (fetchResult o.resourcesResult) }
          (updateState s2 config.id st, .ok st)

/-- `connect` of `client-manager.ts`: unlike the global variant, any id
with a live client is first disconnected unconditionally — "If already
connected, disconnect first" — and then reconnected from scratch. -/
def connect (s : McpState) (config : McpServerConfig) (o : ConnectOutcome) :
    McpState × Except String McpServerState :=
  match s.clients config.id with
  | some _ => connectBody (disconnect s config.id) config o
  | none => connectBody s config o

/-- `getState` of `client-manager.ts`. -/
def getState (s : McpState) (serverId : String) : Option McpServerState :=
  s.states serverId

/-- `isConnected` of `client-manager.ts`: presence in the clients map
only. -/
def isConnected (s : McpState) (serverId : String) : Bool :=
  (s.clients serverId).isSome

end McpClientManager

namespace ChatRoute

open Mcp

/-! JavaScript string primitives used by `route.ts`.

`String.prototype.split(sep)` with a non-empty plain-string separator
scans for leftmost non-overlapping occurrences; `Array.prototype.join`
interleaves the separator.  They are modelled on character lists with an
explicit fuel (always instantiated with the string length, which bounds
the number of split steps) so that every definition is structurally
recursive and evaluates. -/

/-- Index of the first occurrence of `sep` in `s`, if any. -/
def findSub (sep : List Char) : List Char → Option Nat
  | [] => if List.isPrefixOf sep [] then some 0 else none
  | c :: cs =>
      if List.isPrefixOf sep (c :: cs) then some 0
      else (findSub sep cs).map (fun i => i + 1)

/-- Fueled splitting on every occurrence of `sep`, leftmost first. -/
def splitAllF (sep : List Char) : Nat → List Char → List (List Char)
  | 0, s => [s]
  | fuel + 1, s =>
      match findSub sep s with
      | none => [s]
      | some i => List.take i s :: splitAllF sep fuel (List.drop (i + sep.length) s)

/-- `s.split(sep)` for a non-empty plain-string separator. -/
def jsSplit (sep s : String) : List String :=
  (splitAllF sep.data s.data.length s.data).map (fun l => String.mk l)

/-- Character-list version of `Array.prototype.join(sep)`. -/
def jsJoinL (sep : List Char) : List (List Char) → List Char
  | [] => []
  | [x] => x
  | x :: y :: ys => x ++ sep ++ jsJoinL sep (y :: ys)

/-- `parts.join(sep)` on strings. -/
def jsJoin (sep : String) : List String → String
  | [] => ""
  | [x] => x
  | x :: y :: ys => x ++ sep ++ jsJoin sep (y :: ys)

/-- The typed events of the SSE stream (`StreamEvent` in `route.ts`). -/
inductive StreamEvent where
  | text (content : String)
  | toolCall (toolName : String) (args : Json) (serverId : String)
  | toolResult (toolName : String) (result : String) (serverId : String)
  | error (message : String)
deriving DecidableEq

/-- Whether an event is an `error` event. -/
def StreamEvent.isError : StreamEvent → Bool
  | .error _ => true
  | _ => false

/-- Whether an event is a `text` event. -/
def StreamEvent.isText : StreamEvent → Bool
  | .text _ => true
  | _ => false

/-- Whether an event is a `tool_result` event. -/
def StreamEvent.isToolResult : StreamEvent → Bool
  | .toolResult _ _ _ => true
  | _ => false

/-- An MCP tool qualified with its owning server (`McpTool` in
`route.ts`). -/
structure McpTool where
  name : String
  description : Option String := none
  inputSchema : Option Json := none
  serverId : String
  serverName : String
deriving DecidableEq

/-- The qualified tool identifier built by `convertToClaudeTool`:
`` `${tool.serverId}__${tool.name}` ``. -/
def mkToolId (serverId toolName : String) : String :=
  serverId ++ "__" ++ toolName

/-- A provider-native tool declaration (`Anthropic.Tool`). -/
structure ClaudeTool where
  name : String
  description : String
  inputSchemaProperties : Json
  inputSchemaRequired : List Json
deriving DecidableEq

/-- `convertToClaudeTool` of `route.ts`: qualified name, description
defaulting to a server-attributed fallback, and the input schema with the
`required` list normalized to an array. -/
def convertToClaudeTool (tool : McpTool) : ClaudeTool :=
  let schema := tool.inputSchema.getD (Json.obj .nil)
  let requiredFields :=
    match schema.getField "required" with
    | some (Json.arr items) => items.toList
    | _ => []
  { name := mkToolId tool.serverId tool.name
    description := tool.description.getD ("Tool from " ++ tool.serverName)
    inputSchemaProperties := (schema.getField "properties").getD (Json.obj .nil)
    inputSchemaRequired := requiredFields }

/-- `ensureMcpConnections` of `route.ts`: walk the requested configs; for
each, connect unless `isConnected` already holds (a connect failure is
caught and logged), then record the id if `isConnected` holds
afterwards.  Each config is paired with the environment's outcome for
its (potential) connect attempt. -/
def ensureMcpConnections (s : McpState) :
    List (McpServerConfig × ConnectOutcome) → McpState × List String
  | [] => (s, [])
  | (config, o) :: rest =>
      let s1 :=
        if GlobalMcpClientManager.isConnected s config.id then s
        else (GlobalMcpClientManager.connect s config o).1
      let (s2, ids) := ensureMcpConnections s1 rest
      if GlobalMcpClientManager.isConnected s1 config.id then
        (s2, config.id :: ids)
      else (s2, ids)

/-- `getMcpToolsForClaude` of `route.ts`: all tools of every id whose
snapshot is `connected` and carries a tool list, tagged with the
snapshot's config id and name. -/
def getMcpToolsForClaude (s : McpState) (connectedIds : List String) : List McpTool :=
  connectedIds.flatMap (fun serverId =>
    match GlobalMcpClientManager.getState s serverId with
    | some state =>
        if state.status = .connected then
          match state.tools with
          | some tools =>
              tools.map (fun t =>
                { name := t.name
                  description := t.description
                  inputSchema := t.inputSchema
                  serverId := state.config.id
                  serverName := state.config.name })
          | none => []
        else []
    | none => [])

/-- The splitting step of `executeMcpTool` in `route.ts`: split the
qualified identifier on `"__"`, reject identifiers without a separator,
take the first segment as the server id and rejoin the remainder as the
tool name. -/
def executeMcpToolSplit (toolId : String) : Except String (String × String) :=
  let parts := jsSplit "__" toolId
  if parts.length < 2 then .error ("Invalid tool ID format: " ++ toolId)
  else .ok (parts.headI, jsJoin "__" (parts.drop 1))

/-- The serialized fallback `JSON.stringify(item)` for a non-text content
part, rendering exactly the fields the item carries. -/
def serializeContentItem (item : ContentItem) : String :=
  Json.stringify (Json.obj (JsonFields.ofList (
    [("type", Json.str item.type)] ++
    (match item.text with | some t => [("text", Json.str t)] | none => []) ++
    (match item.data with | some d => [("data", Json.str d)] | none => []) ++
    (match item.mimeType with | some m => [("mimeType", Json.str m)] | none => []))))

/-- The flattening step of `executeMcpTool`: text parts verbatim (an
absent `text` renders as the empty string, as `Array.join` renders
`undefined`), non-text parts serialized, joined with newlines. -/
def flattenContent (content : List ContentItem) : String :=
  jsJoin "\n" (content.map (fun item =>
    if item.type = "text" then item.text.getD "" else serializeContentItem item))

/-- `executeMcpTool` of `route.ts`: split the qualified identifier (the
format throw sits outside the `try` and propagates), call the tool
through the manager, and flatten the result; a `callTool` failure is
caught and converted into an `Error executing tool:` text result. -/
def executeMcpTool (s : McpState) (toolId : String) (args : Json) :
    Except String String :=
  match executeMcpToolSplit toolId with
  | .error e => .error e
  | .ok (serverId, toolName) =>
      match (GlobalMcpClientManager.callTool s serverId toolName args).2 with
      | .ok result => .ok (flattenContent result.content)
      | .error e => .ok ("Error executing tool: " ++ e)

end ChatRoute

namespace ChatRoute

open Mcp

/-- One block of a Claude response's `content`. -/
inductive ContentBlock where
  | text (text : String)
  | toolUse (id : String) (name : String) (input : Json)
deriving DecidableEq

/-- `Anthropic.ToolResultBlockParam` as built by the loop. -/
structure ToolResultParam where
  toolUseId : String
  content : String
deriving DecidableEq

/-- A message of the request history sent to the Claude API: the plain
role/content messages of the inbound request, the assistant turn echoing
a tool-use response, or the user turn carrying tool results. -/
inductive ClaudeMessage where
  | textMsg (role : String) (content : String)
  | assistantBlocks (content : List ContentBlock)
  | userToolResults (results : List ToolResultParam)
deriving DecidableEq

/-- A response of `anthropic.messages.create`: its content blocks and
whether `stop_reason === "tool_use"`. -/
structure ClaudeResponse where
  content : List ContentBlock
  stopReasonToolUse : Bool
deriving DecidableEq

/-- The text events streamed from a response's content blocks: every
non-empty text block, in order (`if (block.type === "text" && block.text)`). -/
def textEventsOf (content : List ContentBlock) : List StreamEvent :=
  content.filterMap (fun block =>
    match block with
    | .text t => if t = "" then none else some (StreamEvent.text t)
    | .toolUse _ _ _ => none)

/-- `response.content.filter(block => block.type === "tool_use")`, as the
triples the loop consumes. -/
def toolUseBlocksOf (content : List ContentBlock) : List (String × String × Json) :=
  content.filterMap (fun block =>
    match block with
    | .text _ => none
    | .toolUse id name input => some (id, name, input))

/-- The display name extracted in the loop: the final `"__"`-separated
segment when the identifier splits, the identifier itself otherwise. -/
def displayToolName (toolId : String) : String :=
  let toolNameParts := jsSplit "__" toolId
  if toolNameParts.length > 1 then toolNameParts.getLastD toolId else toolId

/-- The server id extracted in the loop: the first `"__"`-separated
segment when the identifier splits, `"unknown"` otherwise. -/
def displayServerId (toolId : String) : String :=
  let toolNameParts := jsSplit "__" toolId
  if toolNameParts.length > 1 then toolNameParts.headI else "unknown"

/-- The body of the `for (const toolUse of toolUseBlocks)` loop: for each
requested invocation, in order, emit a `tool_call` event, execute the
tool, emit a `tool_result` event and accumulate the provider-facing tool
result; the invocations run strictly sequentially.  A throw from
`executeMcpTool` (an identifier without a separator) aborts the loop and
is reported in the third component for the surrounding `catch`. -/
def processToolUses (s : McpState) :
    List (String × String × Json) →
    List StreamEvent × List ToolResultParam × Option String
  | [] => ([], [], none)
  | (blockId, name, input) :: rest =>
      let callEvent := StreamEvent.toolCall (displayToolName name) input (displayServerId name)
      match executeMcpTool s name input with
      | .error e => ([callEvent], [], some e)
      | .ok toolResult =>
          let resultEvent :=
            StreamEvent.toolResult (displayToolName name) toolResult (displayServerId name)
          let (events, results, aborted) := processToolUses s rest
          (callEvent :: resultEvent :: events,
           ⟨blockId, toolResult⟩ :: results,
           aborted)

/-- The `while (response.stop_reason === "tool_use")` loop of
`handleClaudeChat`, driven by a provider modelled as a function from the
submitted request (tool declarations and message list) to a response or
a failure.  Each turn: a failed provider call is caught and yields the
single terminating `error` event; a tool-use response streams its text
blocks, then the tool-call/tool-result pairs, then resubmits the
original history extended with the assistant turn and this turn's
accumulated tool results; a final response streams its text blocks.  The
fuel bounds the number of provider calls the trace may observe; `none`
means the run was still looping when the fuel ran out. -/
def runClaudeTurns (s : McpState)
    (provider : Option (List ClaudeTool) → List ClaudeMessage → Except String ClaudeResponse)
    (tools : Option (List ClaudeTool)) (origMsgs reqMsgs : List ClaudeMessage) :
    Nat → Option (List StreamEvent)
  | 0 => none
  | fuel + 1 =>
      match provider tools reqMsgs with
      | .error e => some [StreamEvent.error e]
      | .ok response =>
          if response.stopReasonToolUse then
            let textEvents := textEventsOf response.content
            match processToolUses s (toolUseBlocksOf response.content) with
            | (toolEvents, _, some e) =>
                some (textEvents ++ toolEvents ++ [StreamEvent.error e])
            | (toolEvents, toolResults, none) =>
                let updatedMessages := origMsgs ++
                  [ClaudeMessage.assistantBlocks response.content,
                   ClaudeMessage.userToolResults toolResults]
                (runClaudeTurns s provider tools origMsgs updatedMessages fuel).map
                  (fun events => textEvents ++ toolEvents ++ events)
          else
            some (textEventsOf response.content)

/-- `handleClaudeChat` of `route.ts`: a missing `ANTHROPIC_API_KEY`
throws before any stream is created (the thrown error is answered by the
`POST` handler as an HTTP 500 JSON body, not as a stream event);
otherwise MCP connections are ensured when enabled, the tool
declarations are built, and the stream runs the turn loop. -/
def handleClaudeChat (apiKey : Option String)
    (messages : List (String × String))
    (mcpServers : List (McpServerConfig × ConnectOutcome)) (mcpEnabled : Bool)
    (s : McpState)
    (provider : Option (List ClaudeTool) → List ClaudeMessage → Except String ClaudeResponse)
    (fuel : Nat) :
    Except String (McpState × Option (List StreamEvent)) :=
  match apiKey with
  | none => .error "Anthropic API key not configured"
  | some _ =>
      let (s1, connectedIds) :=
        if mcpEnabled && !mcpServers.isEmpty then ensureMcpConnections s mcpServers
        else (s, [])
      let mcpTools := getMcpToolsForClaude s1 connectedIds
      let tools :=
        if mcpTools.length > 0 then some (mcpTools.map convertToClaudeTool) else none
      let claudeMessages := messages.map (fun m => ClaudeMessage.textMsg m.1 m.2)
      .ok (s1, runClaudeTurns s1 provider tools claudeMessages claudeMessages fuel)

/-- One entry of `response.functionCalls` of the Gemini SDK. -/
structure FunctionCall where
  name : Option String := none
  args : Option Json := none
deriving DecidableEq

/-- The single `generateContent` response the Gemini handler consumes. -/
structure GeminiResponse where
  text : Option String := none
  functionCalls : List FunctionCall := []
deriving DecidableEq

/-- The event stream produced by the body of `handleGeminiChat`'s
`ReadableStream`: one provider call; its text (when truthy) as a `text`
event, then one `tool_call` event per requested function call — the
Gemini handler never executes the calls, emits no `tool_result` events
and never loops; a failure is caught as a single `error` event. -/
def geminiStreamEvents (result : Except String GeminiResponse) : List StreamEvent :=
  match result with
  | .error e => [StreamEvent.error e]
  | .ok response =>
      (match response.text with
       | some t => if t = "" then [] else [StreamEvent.text t]
       | none => []) ++
      response.functionCalls.map (fun fc =>
        StreamEvent.toolCall
          (match fc.name with
           | some n => if n = "" then "unknown" else n
           | none => "unknown")
          (fc.args.getD (Json.obj .nil))
          "auto")

/-- `handleGeminiChat` of `route.ts`: a missing `GEMINI_API_KEY` throws
before any stream is created; otherwise MCP connections are ensured when
enabled and the stream performs one provider call. -/
def handleGeminiChat (apiKey : Option String)
    (mcpServers : List (McpServerConfig × ConnectOutcome)) (mcpEnabled : Bool)
    (s : McpState) (result : Except String GeminiResponse) :
    Except String (McpState × List StreamEvent) :=
  match apiKey with
  | none => .error "Gemini API key not configured"
  | some _ =>
      let (s1, _) :=
        if mcpEnabled && !mcpServers.isEmpty then ensureMcpConnections s mcpServers
        else (s, [])
      .ok (s1, geminiStreamEvents result)

end ChatRoute

namespace McpContext

open Mcp

/-- The wire string of a transport kind. -/
def transportString : TransportType → String
  | .stdio => "stdio"
  | .streamableHttp => "streamable-http"
  | .sse => "sse"

/-- The JSON document `JSON.stringify` serializes for one
`McpServerConfig` value: its present fields, in declaration order;
absent optional fields are omitted. -/
def configToJson (c : McpServerConfig) : Json :=
  Json.obj (JsonFields.ofList (
    [("id", Json.str c.id),
     ("name", Json.str c.name),
     ("transport", Json.str (transportString c.transport))] ++
    (match c.command with
     | some v => [("command", Json.str v)] | none => []) ++
    (match c.args with
     | some v => [("args", Json.arr (JsonList.ofList (v.map Json.str)))]
     | none => []) ++
    (match c.env with
     | some v => [("env", Json.obj (JsonFields.ofList (v.map (fun p => (p.1, Json.str p.2)))))]
     | none => []) ++
    (match c.url with
     | some v => [("url", Json.str v)] | none => []) ++
    (match c.headers with
     | some v => [("headers", Json.obj (JsonFields.ofList (v.map (fun p => (p.1, Json.str p.2)))))]
     | none => [])))

/-- `exportConfig` of `mcp-context.tsx` returns
`JSON.stringify(servers, null, 2)`: the stored server list, as one JSON
array document, pretty-printed by the platform serializer.  The model
yields the document; its text rendering is the abstracted platform
layer.  The stored list is kept as the runtime JSON values the context
actually holds (typed configs enter it through `configToJson`). -/
def exportConfig (servers : List Json) : Json :=
  Json.arr (JsonList.ofList servers)

/-- `importConfig` of `mcp-context.tsx`, taking the result of the
platform `JSON.parse` of its string input: a parse failure or a parsed
value that is not an array both reach the outer `catch` and rethrow as
`"Failed to parse config"`, leaving the stored list unchanged; an array
replaces the whole stored list. -/
def importConfig (parsed : Except String Json) (servers : List Json) :
    List Json × Except String Unit :=
  match parsed with
  | .error _ => (servers, .error "Failed to parse config")
  | .ok j =>
      match j with
      | Json.arr items => (items.toList, .ok ())
      | _ => (servers, .error "Failed to parse config")

end McpContext

namespace ChatRoute

/-! Lemmas about the JavaScript split/join model, leading to the
round-trip analysis of the qualified tool identifiers. -/

/-- The character list of the qualified-identifier separator `"__"`. -/
def dsep : List Char := ['_', '_']

theorem dsep_data : "__".data = dsep := by decide

theorem findSub_nil (sep : List Char) (hsep : sep ≠ []) : findSub sep [] = none := by
  cases sep with
  | nil => exact absurd rfl hsep
  | cons a as => simp [findSub, List.isPrefixOf]

theorem findSub_bound (sep : List Char) :
    ∀ {s : List Char} {i : Nat}, findSub sep s = some i → i + sep.length ≤ s.length := by
  intro s
  induction s with
  | nil =>
      intro i h
      rw [findSub] at h
      split at h
      · cases h
        have hp : sep <+: ([] : List Char) := List.isPrefixOf_iff_prefix.mp (by assumption)
        simpa using hp.length_le
      · cases h
  | cons c cs ih =>
      intro i h
      rw [findSub] at h
      split at h
      · cases h
        have hp : sep <+: (c :: cs) := List.isPrefixOf_iff_prefix.mp (by assumption)
        simpa using hp.length_le
      · rcases Option.map_eq_some'.mp h with ⟨j, hj, rfl⟩
        have := ih hj
        simp only [List.length_cons]
        omega

theorem findSub_decomp (sep : List Char) :
    ∀ {s : List Char} {i : Nat}, findSub sep s = some i →
      List.take i s ++ sep ++ List.drop (i + sep.length) s = s := by
  intro s
  induction s with
  | nil =>
      intro i h
      rw [findSub] at h
      split at h
      · cases h
        have hp : sep <+: ([] : List Char) := List.isPrefixOf_iff_prefix.mp (by assumption)
        have : sep = [] := List.prefix_nil.mp hp
        subst this
        simp
      · cases h
  | cons c cs ih =>
      intro i h
      rw [findSub] at h
      split at h
      · cases h
        have hp : sep <+: (c :: cs) := List.isPrefixOf_iff_prefix.mp (by assumption)
        rcases hp with ⟨t, ht⟩
        rw [← ht]
        simp [List.drop_left]
      · rcases Option.map_eq_some'.mp h with ⟨j, hj, rfl⟩
        have ihj := ih hj
        have hidx : j + 1 + sep.length = (j + sep.length) + 1 := by omega
        rw [hidx, List.drop_succ_cons, List.take_succ_cons]
        simp only [List.cons_append, List.append_assoc] at ihj ⊢
        rw [ihj]

theorem splitAllF_ne_nil (sep : List Char) (fuel : Nat) (s : List Char) :
    splitAllF sep fuel s ≠ [] := by
  cases fuel with
  | zero => simp [splitAllF]
  | succ f =>
      rw [splitAllF]
      cases h : findSub sep s <;> simp

theorem splitAllF_congr (sep : List Char) (hsep : sep ≠ []) :
    ∀ (f1 : Nat) {f2 : Nat} {s : List Char}, s.length ≤ f1 → s.length ≤ f2 →
      splitAllF sep f1 s = splitAllF sep f2 s := by
  have hsep1 : 1 ≤ sep.length := by
    cases sep with
    | nil => exact absurd rfl hsep
    | cons a as => simp
  intro f1
  induction f1 with
  | zero =>
      intro f2 s h1 h2
      have hs : s = [] := List.eq_nil_of_length_eq_zero (Nat.le_zero.mp h1)
      subst hs
      cases f2 with
      | zero => rfl
      | succ g => simp [splitAllF, findSub_nil sep hsep]
  | succ f ih =>
      intro f2 s h1 h2
      cases f2 with
      | zero =>
          have hs : s = [] := List.eq_nil_of_length_eq_zero (Nat.le_zero.mp h2)
          subst hs
          simp [splitAllF, findSub_nil sep hsep]
      | succ g =>
          rw [splitAllF, splitAllF]
          cases hfs : findSub sep s with
          | none => rfl
          | some i =>
              have hb := findSub_bound sep hfs
              have hd : (List.drop (i + sep.length) s).length ≤ f := by
                simp only [List.length_drop]
                omega
              have hd2 : (List.drop (i + sep.length) s).length ≤ g := by
                simp only [List.length_drop]
                omega
              show List.take i s :: splitAllF sep f (List.drop (i + sep.length) s)
                  = List.take i s :: splitAllF sep g (List.drop (i + sep.length) s)
              rw [ih hd hd2]

theorem jsJoinL_splitAllF (sep : List Char) (hsep : sep ≠ []) :
    ∀ (fuel : Nat) {s : List Char}, s.length ≤ fuel →
      jsJoinL sep (splitAllF sep fuel s) = s := by
  have hsep1 : 1 ≤ sep.length := by
    cases sep with
    | nil => exact absurd rfl hsep
    | cons a as => simp
  intro fuel
  induction fuel with
  | zero => intro s h; simp [splitAllF, jsJoinL]
  | succ f ih =>
      intro s h
      rw [splitAllF]
      cases hfs : findSub sep s with
      | none => simp [jsJoinL]
      | some i =>
          have hb := findSub_bound sep hfs
          have hd : (List.drop (i + sep.length) s).length ≤ f := by
            simp only [List.length_drop]
            omega
          show jsJoinL sep
              (List.take i s :: splitAllF sep f (List.drop (i + sep.length) s)) = s
          cases hsp : splitAllF sep f (List.drop (i + sep.length) s) with
          | nil => exact absurd hsp (splitAllF_ne_nil sep f _)
          | cons y ys =>
              have hrest := ih hd
              rw [hsp] at hrest
              show jsJoinL sep (List.take i s :: y :: ys) = s
              rw [jsJoinL, hrest]
              exact findSub_decomp sep hfs

end ChatRoute

namespace ChatRoute

theorem findSub_boundary (t : List Char) :
    ∀ (s : List Char), findSub dsep s = none → s.getLast? ≠ some '_' →
      findSub dsep (s ++ dsep ++ t) = some s.length := by
  intro s
  induction s with
  | nil =>
      intro _ _
      show findSub dsep ('_' :: '_' :: t) = some 0
      rw [findSub, if_pos]
      simp [dsep, List.isPrefixOf]
  | cons c cs ih =>
      intro h1 h2
      by_cases hp : List.isPrefixOf dsep (c :: cs) = true
      · rw [findSub, if_pos hp] at h1
        cases h1
      · have h1' : findSub dsep cs = none := by
          rw [findSub, if_neg hp] at h1
          cases hcs : findSub dsep cs with
          | none => rfl
          | some j => rw [hcs] at h1; simp at h1
        have hnp : ¬ List.isPrefixOf dsep (c :: (cs ++ dsep ++ t)) = true := by
          cases cs with
          | nil =>
              have hc : c ≠ '_' := by
                intro hc
                exact h2 (by simp [hc])
              simp only [dsep, List.nil_append, List.isPrefixOf, Bool.and_eq_true,
                beq_iff_eq] at hp ⊢
              intro hcontra
              exact hc hcontra.1.symm
          | cons c' cs' =>
              simp only [dsep, List.cons_append, List.isPrefixOf, Bool.and_eq_true,
                beq_iff_eq] at hp ⊢
              intro hcontra
              exact hp ⟨hcontra.1, hcontra.2.1, trivial⟩
        have h2' : cs.getLast? ≠ some '_' := by
          cases cs with
          | nil => simp
          | cons c' cs' =>
              rw [List.getLast?_cons_cons] at h2
              exact h2
        show findSub dsep (c :: (cs ++ dsep ++ t)) = some (c :: cs).length
        rw [findSub, if_neg hnp, ih h1' h2']
        simp

theorem splitAllF_boundary (sid t : List Char) (h1 : findSub dsep sid = none)
    (h2 : sid.getLast? ≠ some '_') (fuel : Nat)
    (hf : (sid ++ dsep ++ t).length ≤ fuel) :
    splitAllF dsep fuel (sid ++ dsep ++ t) = sid :: splitAllF dsep t.length t := by
  have hflen : (sid ++ dsep ++ t).length = sid.length + 2 + t.length := by
    simp [dsep]
    omega
  cases fuel with
  | zero =>
      exfalso
      omega
  | succ f =>
      rw [splitAllF, findSub_boundary t sid h1 h2]
      show List.take sid.length (sid ++ dsep ++ t) ::
          splitAllF dsep f (List.drop (sid.length + dsep.length) (sid ++ dsep ++ t))
        = sid :: splitAllF dsep t.length t
      have htake : List.take sid.length (sid ++ dsep ++ t) = sid := by
        rw [List.append_assoc]
        exact List.take_left sid (dsep ++ t)
      have hdrop : List.drop (sid.length + dsep.length) (sid ++ dsep ++ t) = t := by
        have hlen : sid.length + dsep.length = (sid ++ dsep).length := by
          rw [List.length_append]
        rw [hlen]
        exact List.drop_left (sid ++ dsep) t
      rw [htake, hdrop]
      have hft : t.length ≤ f := by omega
      rw [splitAllF_congr dsep (by simp [dsep]) f hft (le_refl t.length)]

theorem mk_data (s : String) : String.mk s.data = s := rfl

theorem jsJoin_map_mk (sep : String) (ls : List (List Char)) :
    jsJoin sep (ls.map String.mk) = String.mk (jsJoinL sep.data ls) := by
  induction ls with
  | nil => rfl
  | cons x xs ih =>
      cases xs with
      | nil => rfl
      | cons y ys =>
          show String.mk x ++ sep ++ jsJoin sep ((y :: ys).map String.mk)
              = String.mk (x ++ sep.data ++ jsJoinL sep.data (y :: ys))
          rw [ih]
          cases sep with
          | mk sd => rfl

theorem jsSplit_mkToolId (sid nm : String) (h1 : findSub dsep sid.data = none)
    (h2 : sid.data.getLast? ≠ some '_') :
    jsSplit "__" (mkToolId sid nm) =
      sid :: (splitAllF dsep nm.data.length nm.data).map String.mk := by
  have hdata : (mkToolId sid nm).data = sid.data ++ dsep ++ nm.data := by
    show (sid ++ "__" ++ nm).data = sid.data ++ dsep ++ nm.data
    rw [String.data_append, String.data_append, dsep_data]
  unfold jsSplit
  rw [dsep_data, hdata,
    splitAllF_boundary sid.data nm.data h1 h2 _ (le_refl _)]
  simp [mk_data]

theorem executeMcpToolSplit_mkToolId (sid nm : String)
    (h1 : findSub dsep sid.data = none) (h2 : sid.data.getLast? ≠ some '_') :
    executeMcpToolSplit (mkToolId sid nm) = .ok (sid, nm) := by
  unfold executeMcpToolSplit
  rw [jsSplit_mkToolId sid nm h1 h2]
  cases hsp : splitAllF dsep nm.data.length nm.data with
  | nil => exact absurd hsp (splitAllF_ne_nil dsep nm.data.length nm.data)
  | cons y ys =>
      have hnm : jsJoinL dsep (y :: ys) = nm.data := by
        have h := jsJoinL_splitAllF dsep (by simp [dsep]) nm.data.length (le_refl nm.data.length)
        rw [hsp] at h
        exact h
      have hjoin : jsJoin "__" ((y :: ys).map String.mk) = nm := by
        rw [jsJoin_map_mk, dsep_data, hnm, mk_data]
      rw [if_neg (by simp)]
      simp only [List.headI, List.drop_one, List.tail_cons]
      rw [hjoin]

end ChatRoute

namespace ChatRoute

theorem jsJoinL_last_length (d : List Char) :
    ∀ (x y : List Char) (ys : List (List Char)),
      ((x :: y :: ys).getLastD d).length + dsep.length ≤
        (jsJoinL dsep (x :: y :: ys)).length := by
  intro x y ys
  induction ys generalizing x y with
  | nil =>
      simp [jsJoinL, List.getLastD_cons, List.length_append]
      omega
  | cons z zs ih =>
      have hrec := ih y z
      show ((x :: y :: z :: zs).getLastD d).length + dsep.length ≤
        (x ++ dsep ++ jsJoinL dsep (y :: z :: zs)).length
      rw [List.getLastD_cons]
      simp only [List.length_append]
      rw [List.getLastD_cons] at hrec ⊢
      omega

theorem displayToolName_mkToolId_ne (sid nm : String)
    (h1 : findSub dsep sid.data = none) (h2 : sid.data.getLast? ≠ some '_')
    (h3 : (findSub dsep nm.data).isSome) :
    displayToolName (mkToolId sid nm) ≠ nm := by
  rcases Option.isSome_iff_exists.mp h3 with ⟨i, hi⟩
  have hb := findSub_bound dsep hi
  rcases hn : nm.data.length with _ | f
  · rw [hn] at hb
    simp [dsep] at hb
  · have hsplit : splitAllF dsep (f + 1) nm.data =
        List.take i nm.data ::
          splitAllF dsep f (List.drop (i + dsep.length) nm.data) := by
      rw [splitAllF, hi]
    cases hsp : splitAllF dsep f (List.drop (i + dsep.length) nm.data) with
    | nil => exact absurd hsp (splitAllF_ne_nil dsep f _)
    | cons y ys =>
        unfold displayToolName
        rw [jsSplit_mkToolId sid nm h1 h2, hn, hsplit, hsp]
        show (if (sid :: (List.take i nm.data :: y :: ys).map String.mk).length > 1
            then (sid :: (List.take i nm.data :: y :: ys).map String.mk).getLastD
              (mkToolId sid nm)
            else mkToolId sid nm) ≠ nm
        rw [if_pos (by simp)]
        have hjoin : jsJoinL dsep (List.take i nm.data :: y :: ys) = nm.data := by
          have h := jsJoinL_splitAllF dsep (by simp [dsep]) nm.data.length
            (le_refl nm.data.length)
          rw [hn, hsplit, hsp] at h
          exact h
        have hlen := jsJoinL_last_length sid.data (List.take i nm.data) y ys
        rw [hjoin] at hlen
        intro hcontra
        have hmapLast : ∀ (ls : List (List Char)) (dflt : List Char),
            (ls.map String.mk).getLastD (String.mk dflt)
              = String.mk (ls.getLastD dflt) := by
          intro ls
          induction ls with
          | nil => intro dflt; rfl
          | cons a as iha =>
              intro dflt
              cases as with
              | nil => rfl
              | cons b bs =>
                  simp only [List.map_cons, List.getLastD_cons] at iha ⊢
                  exact iha a
        have h0 := hmapLast (sid.data :: List.take i nm.data :: y :: ys)
          (mkToolId sid nm).data
        rw [mk_data] at h0
        simp only [List.map_cons, mk_data] at h0
        simp only [List.map_cons] at hcontra
        rw [h0] at hcontra
        have hdata := congrArg String.data hcontra
        simp only [List.getLastD_cons] at hdata
        simp only [List.getLastD_cons] at hlen
        rw [hdata] at hlen
        have hd2 : dsep.length = 2 := rfl
        rw [hd2] at hlen
        omega

end ChatRoute
namespace Mcp

theorem setMap_self (m : String → Option α) (k : String) (v : α) :
    setMap m k v k = some v := by simp [setMap]

theorem setMap_other (m : String → Option α) (k k' : String) (v : α) (h : k' ≠ k) :
    setMap m k v k' = m k' := by simp [setMap, h]

theorem delMap_self (m : String → Option α) (k : String) :
    delMap m k k = none := by simp [delMap]

theorem delMap_other (m : String → Option α) (k k' : String) (h : k' ≠ k) :
    delMap m k k' = m k' := by simp [delMap, h]

end Mcp

namespace GlobalMcpClientManager

open Mcp

/-- Registry tables reachable from the empty process-wide state by any
sequence of the public operations. -/
inductive Reachable : McpState → Prop where
  | init : Reachable McpState.empty
  | connectStep (s : McpState) (config : McpServerConfig) (o : ConnectOutcome) :
      Reachable s → Reachable (connect s config o).1
  | disconnectStep (s : McpState) (serverId : String) :
      Reachable s → Reachable (disconnect s serverId)
  | callToolStep (s : McpState) (serverId toolName : String) (args : Json) :
      Reachable s → Reachable (callTool s serverId toolName args).1
  | getPromptStep (s : McpState) (serverId promptName : String)
      (args : Option (List (String × String))) :
      Reachable s → Reachable (getPrompt s serverId promptName args).1
  | readResourceStep (s : McpState) (serverId uri : String) :
      Reachable s → Reachable (readResource s serverId uri).1

/-- The structural invariant of the registry tables: every snapshot's
capability lists are present exactly when its status is `connected`; an
`error` snapshot carries a message; a message is carried only by `error`
or `disconnected` snapshots (`disconnect` keeps a stale one); and a live
client exists exactly under a `connected` snapshot. -/
def Inv (s : McpState) : Prop :=
  (∀ id st, s.states id = some st →
    ((st.tools.isSome ↔ st.status = .connected) ∧
     (st.prompts.isSome ↔ st.status = .connected) ∧
     (st.resources.isSome ↔ st.status = .connected)) ∧
    (st.status = .error → st.error.isSome) ∧
    (st.error.isSome → st.status = .error ∨ st.status = .disconnected) ∧
    ((s.clients id).isSome ↔ st.status = .connected)) ∧
  (∀ id, (s.clients id).isSome → (s.states id).isSome)

theorem inv_empty : Inv McpState.empty := by
  constructor
  · intro id st hst
    simp [McpState.empty] at hst
  · intro id h
    simp [McpState.empty] at h

theorem disconnect_clients_self (s : McpState) (serverId : String) :
    (disconnect s serverId).clients serverId = none := by
  unfold disconnect
  cases hc : s.clients serverId with
  | none =>
      simp only []
      cases hs : s.states serverId with
      | none => simpa using hc
      | some st => simpa [updateState] using hc
  | some cc =>
      simp only []
      cases hs : s.states serverId with
      | none => simp [delMap]
      | some st => simp [updateState, delMap]

theorem disconnect_clients (s : McpState) (serverId id : String) (h : id ≠ serverId) :
    (disconnect s serverId).clients id = s.clients id := by
  unfold disconnect
  cases hc : s.clients serverId <;> simp only [] <;>
    cases hs : s.states serverId <;>
      first
      | rfl
      | simp [updateState, delMap, h]

theorem disconnect_states (s : McpState) (serverId id : String) (h : id ≠ serverId) :
    (disconnect s serverId).states id = s.states id := by
  unfold disconnect
  cases hc : s.clients serverId <;> simp only [] <;>
    cases hs : s.states serverId <;>
      first
      | rfl
      | simp [updateState, setMap, h]

theorem disconnect_states_self (s : McpState) (serverId : String) :
    (disconnect s serverId).states serverId =
      (s.states serverId).map (fun st =>
        { st with
          status := .disconnected, tools := none, prompts := none, resources := none }) := by
  unfold disconnect
  cases hc : s.clients serverId <;> simp only [] <;>
    cases hs : s.states serverId <;>
      simp [updateState, setMap, hs]

theorem inv_disconnect (s : McpState) (serverId : String) (h : Inv s) :
    Inv (disconnect s serverId) := by
  obtain ⟨h1, h2⟩ := h
  constructor
  · intro id st hst
    by_cases hid : id = serverId
    · subst hid
      rw [disconnect_states_self] at hst
      cases hs : s.states id with
      | none => rw [hs] at hst; cases hst
      | some st0 =>
          rw [hs] at hst
          simp only [Option.map_some'] at hst
          cases hst
          have := h1 id st0 hs
          refine ⟨by simp, ?_, ?_, ?_⟩
          · intro herr
            simp at herr
          · intro _
            exact Or.inr rfl
          · rw [disconnect_clients_self]
            simp
    · rw [disconnect_states s serverId id hid] at hst
      have := h1 id st hst
      rw [disconnect_clients s serverId id hid]
      exact this
  · intro id hcl
    by_cases hid : id = serverId
    · subst hid
      rw [disconnect_clients_self] at hcl
      simp at hcl
    · rw [disconnect_clients s serverId id hid] at hcl
      rw [disconnect_states s serverId id hid]
      exact h2 id hcl

end GlobalMcpClientManager
namespace Mcp

theorem setMap_setMap (m : String → Option α) (k : String) (a b : α) :
    setMap (setMap m k a) k b = setMap m k b := by
  funext k'
  by_cases h : k' = k <;> simp [setMap, h]

end Mcp

namespace GlobalMcpClientManager

open Mcp

/-- The per-snapshot clauses of `Inv`, factored out. -/
def SnapOk (st : McpServerState) : Prop :=
  ((st.tools.isSome ↔ st.status = .connected) ∧
   (st.prompts.isSome ↔ st.status = .connected) ∧
   (st.resources.isSome ↔ st.status = .connected)) ∧
  (st.status = .error → st.error.isSome) ∧
  (st.error.isSome → st.status = .error ∨ st.status = .disconnected)

/-- The snapshot stored on the two failure paths of `connectBody`. -/
def errSnap (config : McpServerConfig) (e : String) : McpServerState :=
  { config := config, status := .error, error := some e }

/-- The snapshot stored on the success path of `connectBody`. -/
def okSnap (config : McpServerConfig) (o : ConnectOutcome) : McpServerState :=
  { config := config
    status := .connected
    tools := some (fetchResult o.toolsResult)
    prompts := some (fetchResult o.promptsResult)
    resources := some (fetchResult o.resourcesResult) }

/-- The final tables produced by `connectBody`, path by path. -/
theorem connectBody_fst (s : McpState) (config : McpServerConfig) (o : ConnectOutcome) :
    (connectBody s config o).1 =
      match validateTransport config with
      | .error e => { s with states := setMap s.states config.id (errSnap config e) }
      | .ok _ =>
          match o.openResult with
          | .error e => { s with states := setMap s.states config.id (errSnap config e) }
          | .ok _ =>
              { clients := setMap s.clients config.id
                  ⟨o.behavior, config.transport, config⟩
                states := setMap s.states config.id (okSnap config o) } := by
  unfold connectBody updateState
  cases validateTransport config with
  | error e => dsimp only; rw [setMap_setMap]; rfl
  | ok u =>
      cases o.openResult with
      | error e => dsimp only; rw [setMap_setMap]; rfl
      | ok u2 => dsimp only; rw [setMap_setMap]; rfl

/-- The result snapshot returned by `connectBody`. -/
theorem connectBody_snd (s : McpState) (config : McpServerConfig) (o : ConnectOutcome) :
    (connectBody s config o).2 =
      match validateTransport config with
      | .error e => .error e
      | .ok _ =>
          match o.openResult with
          | .error e => .error e
          | .ok _ => .ok (okSnap config o) := by
  unfold connectBody
  cases validateTransport config with
  | error e => rfl
  | ok u => cases o.openResult <;> rfl

theorem inv_setState_noclient (s : McpState) (cid : String) (snap : McpServerState)
    (h : Inv s) (hc : s.clients cid = none) (hsnap : SnapOk snap)
    (hnc : snap.status ≠ .connected) :
    Inv { s with states := setMap s.states cid snap } := by
  obtain ⟨h1, h2⟩ := h
  constructor
  · intro id st hst
    dsimp only at hst ⊢
    by_cases hid : id = cid
    · subst hid
      rw [setMap_self] at hst
      cases hst
      exact ⟨hsnap.1, hsnap.2.1, hsnap.2.2, by simp [hc, hnc]⟩
    · rw [setMap_other s.states cid id snap hid] at hst
      exact h1 id st hst
  · intro id hcl
    dsimp only at hcl ⊢
    by_cases hid : id = cid
    · subst hid
      rw [hc] at hcl
      simp at hcl
    · rw [setMap_other s.states cid id snap hid]
      exact h2 id hcl

theorem inv_setState_withclient (s : McpState) (cid : String) (snap : McpServerState)
    (cc : ConnectedClient) (h : Inv s) (hsnap : SnapOk snap)
    (hcon : snap.status = .connected) :
    Inv { clients := setMap s.clients cid cc, states := setMap s.states cid snap } := by
  obtain ⟨h1, h2⟩ := h
  constructor
  · intro id st hst
    dsimp only at hst ⊢
    by_cases hid : id = cid
    · subst hid
      rw [setMap_self] at hst
      cases hst
      refine ⟨hsnap.1, hsnap.2.1, hsnap.2.2, ?_⟩
      rw [setMap_self]
      simp [hcon]
    · rw [setMap_other s.states cid id snap hid] at hst
      rw [setMap_other s.clients cid id cc hid]
      exact h1 id st hst
  · intro id hcl
    dsimp only at hcl ⊢
    by_cases hid : id = cid
    · subst hid
      rw [setMap_self]
      simp
    · rw [setMap_other s.clients cid id cc hid] at hcl
      rw [setMap_other s.states cid id snap hid]
      exact h2 id hcl

theorem snapOk_errSnap (config : McpServerConfig) (e : String) :
    SnapOk (errSnap config e) := by
  refine ⟨by simp [errSnap], ?_, ?_⟩
  · intro _
    simp [errSnap]
  · intro _
    exact Or.inl rfl

theorem snapOk_okSnap (config : McpServerConfig) (o : ConnectOutcome) :
    SnapOk (okSnap config o) := by
  refine ⟨by simp [okSnap], ?_, ?_⟩
  · intro habs
    simp [okSnap] at habs
  · intro habs
    simp [okSnap] at habs

theorem inv_connectBody (s : McpState) (config : McpServerConfig) (o : ConnectOutcome)
    (h : Inv s) (hc : s.clients config.id = none) :
    Inv (connectBody s config o).1 := by
  rw [connectBody_fst]
  cases hv : validateTransport config with
  | error e =>
      exact inv_setState_noclient s config.id _ h hc (snapOk_errSnap config e)
        (by simp [errSnap])
  | ok u =>
      cases ho : o.openResult with
      | error e =>
          exact inv_setState_noclient s config.id _ h hc (snapOk_errSnap config e)
            (by simp [errSnap])
      | ok u2 =>
          exact inv_setState_withclient s config.id _ _ h (snapOk_okSnap config o) rfl

theorem inv_connect (s : McpState) (config : McpServerConfig) (o : ConnectOutcome)
    (h : Inv s) : Inv (connect s config o).1 := by
  unfold connect
  cases hcl : s.clients config.id with
  | none => exact inv_connectBody s config o h hcl
  | some cc =>
      cases hst : s.states config.id with
      | none =>
          exact inv_connectBody (disconnect s config.id) config o
            (inv_disconnect s config.id h) (disconnect_clients_self s config.id)
      | some existingState =>
          by_cases hcon : existingState.status = .connected
          · simp only [if_pos hcon]
            exact h
          · simp only [if_neg hcon]
            exact inv_connectBody (disconnect s config.id) config o
              (inv_disconnect s config.id h) (disconnect_clients_self s config.id)

theorem callTool_fst (s : McpState) (serverId toolName : String) (args : Json) :
    (callTool s serverId toolName args).1 = s := by
  unfold callTool
  cases s.clients serverId <;> rfl

theorem getPrompt_fst (s : McpState) (serverId promptName : String)
    (args : Option (List (String × String))) :
    (getPrompt s serverId promptName args).1 = s := by
  unfold getPrompt
  cases s.clients serverId <;> rfl

theorem readResource_fst (s : McpState) (serverId uri : String) :
    (readResource s serverId uri).1 = s := by
  unfold readResource
  cases s.clients serverId <;> rfl

/-- Every reachable registry state satisfies the structural invariant. -/
theorem reachable_inv (s : McpState) (h : Reachable s) : Inv s := by
  induction h with
  | init => exact inv_empty
  | connectStep s config o _ ih => exact inv_connect s config o ih
  | disconnectStep s serverId _ ih => exact inv_disconnect s serverId ih
  | callToolStep s serverId toolName args _ ih =>
      rw [callTool_fst]; exact ih
  | getPromptStep s serverId promptName args _ ih =>
      rw [getPrompt_fst]; exact ih
  | readResourceStep s serverId uri _ ih =>
      rw [readResource_fst]; exact ih

end GlobalMcpClientManager
namespace ChatRoute

theorem findSub_isSome_of_contains (sep : List Char) :
    ∀ (s : List Char), sep <:+: s → (findSub sep s).isSome := by
  intro s
  induction s with
  | nil =>
      intro h
      have : sep = [] := List.eq_nil_of_infix_nil h
      subst this
      simp [findSub, List.isPrefixOf]
  | cons c cs ih =>
      intro h
      rcases List.infix_cons_iff.mp h with hp | hinf
      · rw [findSub, if_pos (List.isPrefixOf_iff_prefix.mpr hp)]
        rfl
      · rw [findSub]
        split
      

        · rfl
        · have := ih hinf
          cases hfs : findSub sep cs with
          | none => rw [hfs] at this; simp at this
          | some j => simp [hfs]

theorem findSub_eq_none_iff_not_contains (sep : List Char) (s : List Char) :
    findSub sep s = none ↔ ¬ sep <:+: s := by
  constructor
  · intro h hinf
    have := findSub_isSome_of_contains sep s hinf
    rw [h] at this
    simp at this
  · intro h
    cases hfs : findSub sep s with
    | none => rfl
    | some i =>
        exfalso
        apply h
        have hd := findSub_decomp sep hfs
        exact ⟨List.take i s, List.drop (i + sep.length) s, by
          simpa [List.append_assoc] using hd⟩

end ChatRoute

/-! Concrete fixtures used by the witnesses and counterexamples below. -/

open Mcp ChatRoute in
/-- A remote-side behavior that rejects every request (its responses are
irrelevant to the properties exercised below). -/
def bhvNone : ClientBehavior :=
  ⟨fun _ _ => .error "not handled", fun _ _ => .error "not handled",
   fun _ => .error "not handled"⟩

open Mcp in
/-- A valid STDIO server config. -/
def cfgA : McpServerConfig :=
  { id := "a", name := "A", transport := .stdio, command := some "cmd" }

open Mcp in
/-- An invalid STDIO server config: the required `command` is absent. -/
def cfgBad : McpServerConfig :=
  { id := "b", name := "B", transport := .stdio }

open Mcp in
/-- A valid SSE server config. -/
def cfgC : McpServerConfig :=
  { id := "c", name := "C", transport := .sse, url := some "http://localhost:1" }

open Mcp in
/-- A first advertised tool. -/
def toolA : ToolInfo := { name := "t1" }

open Mcp in
/-- A second advertised tool. -/
def toolB : ToolInfo := { name := "t2" }

open Mcp in
/-- An advertised resource. -/
def resA : ResourceInfo := { uri := "file:///r", name := "r" }

open Mcp in
/-- An environment where the channel opens and every capability listing
succeeds, advertising one tool. -/
def outcome1 : ConnectOutcome :=
  { openResult := .ok (), toolsResult := .ok [toolA], promptsResult := .ok [],
    resourcesResult := .ok [], behavior := bhvNone }

open Mcp in
/-- A second such environment, now advertising two tools. -/
def outcome2 : ConnectOutcome :=
  { openResult := .ok (), toolsResult := .ok [toolA, toolB], promptsResult := .ok [],
    resourcesResult := .ok [], behavior := bhvNone }

open Mcp in
/-- An environment where the channel opens, tool and resource listing
succeed, and prompt listing fails. -/
def outcomePF : ConnectOutcome :=
  { openResult := .ok (), toolsResult := .ok [toolA],
    promptsResult := .error "prompts not supported",
    resourcesResult := .ok [resA], behavior := bhvNone }

open Mcp GlobalMcpClientManager in
/-- The registry after one successful connect of `cfgA` from empty. -/
def sW : McpState := (connect McpState.empty cfgA outcome1).1

open Mcp in
/-- The snapshot stored for `cfgA` by that connect. -/
def snapW : McpServerState :=
  { config := cfgA, status := .connected, tools := some [toolA],
    prompts := some [], resources := some [] }

open ChatRoute in
/-- C6 (counterexample): the claim's premise holds — the server id `"s_"`
contains no `"__"` — yet building the qualified identifier with tool name
`"x"` gives `"s___x"`, whose first `"__"` occurrence starts inside the
server id's trailing underscore, so the split reconstructs `("s", "_x")`
rather than the original `("s_", "x")`. -/
theorem c6_counterexample :
    (¬ ("__".data <:+: "s_".data)) ∧
    executeMcpToolSplit (mkToolId "s_" "x") = .ok ("s", "_x") ∧
    ((Except.ok (("s", "_x")) : Except String (String × String)) ≠
      Except.ok (("s_", "x"))) := by
  refine ⟨by decide, by decide, by decide⟩

open ChatRoute in
/-- C6 (amended): for every server id that neither contains the separator
`"__"` nor ends with `"_"`, and every tool name (which may itself contain
the separator), splitting the qualified identifier
`serverId ++ "__" ++ toolName` on `"__"` — first segment as server id,
remainder rejoined — reconstructs both parts exactly. -/
theorem c6_theorem (sid nm : String)
    (h1 : ¬ ("__".data <:+: sid.data)) (h2 : sid.data.getLast? ≠ some '_') :
    executeMcpToolSplit (mkToolId sid nm) = .ok (sid, nm) :=
  executeMcpToolSplit_mkToolId sid nm
    ((findSub_eq_none_iff_not_contains dsep sid.data).mpr (by rwa [dsep_data] at h1)) h2

open ChatRoute in
/-- C6 (witness): the round trip at server id `"srv"` and tool name
`"my__tool"`, whose name itself contains the separator. -/
theorem c6_witness :
    executeMcpToolSplit (mkToolId "srv" "my__tool") = .ok ("srv", "my__tool") :=
  c6_theorem "srv" "my__tool" (by decide) (by decide)

open ChatRoute in
/-- C10: for a server id that neither contains `"__"` nor ends with `"_"`
and a tool name that does contain `"__"`, the dispatcher recovers the
full tool name (the remainder after the first separator), while the
display name emitted in the `tool_call` / `tool_result` events — the
final `"__"`-separated segment — differs from the name of the tool
actually invoked. -/
theorem c10_theorem (sid nm : String)
    (h1 : ¬ ("__".data <:+: sid.data)) (h2 : sid.data.getLast? ≠ some '_')
    (h3 : "__".data <:+: nm.data) :
    executeMcpToolSplit (mkToolId sid nm) = .ok (sid, nm) ∧
    displayToolName (mkToolId sid nm) ≠ nm := by
  have h1' : findSub dsep sid.data = none :=
    (findSub_eq_none_iff_not_contains dsep sid.data).mpr (by rwa [dsep_data] at h1)
  have h3' : (findSub dsep nm.data).isSome :=
    findSub_isSome_of_contains dsep nm.data (by rwa [dsep_data] at h3)
  exact ⟨executeMcpToolSplit_mkToolId sid nm h1' h2,
    displayToolName_mkToolId_ne sid nm h1' h2 h3'⟩

open ChatRoute in
/-- C10 (witness): with server id `"srv"` and tool `"my__tool"`, the
dispatched tool name is `"my__tool"` but the events display `"tool"`. -/
theorem c10_witness :
    executeMcpToolSplit (mkToolId "srv" "my__tool") = .ok ("srv", "my__tool") ∧
    displayToolName (mkToolId "srv" "my__tool") ≠ "my__tool" :=
  c10_theorem "srv" "my__tool" (by decide) (by decide) (by decide)

open Mcp in
/-- C2 (counterexample): in the `McpClientManager` variant, connecting an
id that is already connected does not return the existing snapshot: the
manager disconnects and reconnects, refetching the capabilities, so a
second connect in an environment now advertising two tools returns a
snapshot whose tool list differs from the first call's. -/
theorem c2_counterexample :
    ((McpClientManager.connect McpState.empty cfgA outcome1).2.map
        (fun st => st.tools)) = Except.ok (some [toolA]) ∧
    ((McpClientManager.connect
        (McpClientManager.connect McpState.empty cfgA outcome1).1
        cfgA outcome2).2.map (fun st => st.tools))
      = Except.ok (some [toolA, toolB]) := by
  refine ⟨by decide, by decide⟩

open Mcp GlobalMcpClientManager in
/-- C2 (amended): in the `GlobalMcpClientManager` variant, calling
`connect` for an id that has a live client and a `connected` snapshot
returns that existing snapshot and leaves the tables untouched, for every
possible environment outcome — so no second channel is opened and no
capability is refetched; the `McpClientManager` variant instead
disconnects and reconnects. -/
theorem c2_theorem (s : McpState) (config : McpServerConfig) (o : ConnectOutcome)
    (cc : ConnectedClient) (st : McpServerState)
    (hcl : s.clients config.id = some cc) (hst : s.states config.id = some st)
    (hcon : st.status = .connected) :
    connect s config o = (s, Except.ok st) := by
  unfold connect
  rw [hcl, hst]
  show (if st.status = ConnectionStatus.connected then (s, Except.ok st)
      else connectBody (disconnect s config.id) config o) = (s, Except.ok st)
  rw [if_pos hcon]

open Mcp GlobalMcpClientManager in
/-- C2 (witness): a second global `connect` of `cfgA` — even with the
environment now advertising two tools — returns the first call's
snapshot unchanged. -/
theorem c2_witness : connect sW cfgA outcome2 = (sW, Except.ok snapW) :=
  c2_theorem sW cfgA outcome2 ⟨outcome1.behavior, .stdio, cfgA⟩ snapW rfl rfl rfl

open Mcp GlobalMcpClientManager in
/-- C5 (counterexample): for an id the registry has never seen,
`disconnect` followed by `getState` yields no snapshot at all (the
normalization only rewrites an existing entry), not a snapshot with
status `disconnected` as the claim requires. -/
theorem c5_counterexample :
    getState (disconnect McpState.empty "ghost") "ghost" = none := rfl

open Mcp GlobalMcpClientManager in
/-- C5 (amended): `disconnect` followed by `getStatus` reports
`disconnected` for every id; and for every id that has a snapshot,
`disconnect` followed by `getState` yields that snapshot normalized to
status `disconnected` with the tools, prompts and resources lists all
absent (a stale error message may remain).  An id the registry has never
seen keeps no snapshot: `getState` returns nothing. -/
theorem c5_theorem (s : McpState) (serverId : String) :
    getStatus (disconnect s serverId) serverId = .disconnected ∧
    (∀ st, s.states serverId = some st →
      getState (disconnect s serverId) serverId =
        some { st with
          status := ConnectionStatus.disconnected
          tools := none
          prompts := none
          resources := none }) ∧
    (s.states serverId = none → getState (disconnect s serverId) serverId = none) := by
  refine ⟨?_, ?_, ?_⟩
  · unfold getStatus
    rw [show (disconnect s serverId).states serverId = _ from disconnect_states_self s serverId]
    cases s.states serverId <;> simp
  · intro st hst
    unfold getState
    rw [disconnect_states_self s serverId, hst]
    rfl
  · intro hnone
    unfold getState
    rw [disconnect_states_self s serverId, hnone]
    rfl

open Mcp GlobalMcpClientManager in
/-- C5 (witness): disconnecting the connected `cfgA` id yields status
`disconnected` and a snapshot with all three capability lists absent. -/
theorem c5_witness :
    getStatus (disconnect sW "a") "a" = .disconnected ∧
    getState (disconnect sW "a") "a" =
      some { config := cfgA, status := .disconnected, tools := none,
             prompts := none, resources := none } :=
  ⟨(c5_theorem sW "a").1, (c5_theorem sW "a").2.1 snapW rfl⟩

open Mcp GlobalMcpClientManager in
/-- The snapshot left for `cfgBad` after its failed connect is then
disconnected: status `disconnected`, yet the error message persists. -/
def snapBadD : McpServerState :=
  { config := cfgBad, status := .disconnected,
    error := some "Command is required for STDIO transport" }

open Mcp GlobalMcpClientManager in
/-- C4 (counterexample): connect an invalid config (status becomes
`error` with a message), then disconnect it.  The resulting snapshot —
reached by the claim's own operations — has status `disconnected` while
the error message field is still present, violating the claimed
"error present iff status = error". -/
theorem c4_counterexample :
    getState (disconnect (connect McpState.empty cfgBad outcome1).1 "b") "b"
        = some snapBadD ∧
    snapBadD.error.isSome = true ∧ snapBadD.status ≠ ConnectionStatus.error := by
  refine ⟨by decide, rfl, by decide⟩

open Mcp GlobalMcpClientManager in
/-- C4 (amended): in every reachable registry state, each snapshot has
its tools, prompts and resources lists present iff its status is
`connected`; every `error` snapshot carries a message; and a message is
carried only while the status is `error` — or `disconnected`, because
`disconnect` preserves a prior error message when it normalizes the
snapshot. -/
theorem c4_theorem (s : McpState) (id : String) (st : McpServerState)
    (hr : Reachable s) (hst : s.states id = some st) :
    ((st.tools.isSome ↔ st.status = .connected) ∧
     (st.prompts.isSome ↔ st.status = .connected) ∧
     (st.resources.isSome ↔ st.status = .connected)) ∧
    (st.status = .error → st.error.isSome) ∧
    (st.error.isSome → st.status = .error ∨ st.status = .disconnected) := by
  have h := reachable_inv s hr
  exact ⟨(h.1 id st hst).1, (h.1 id st hst).2.1, (h.1 id st hst).2.2.1⟩

open Mcp GlobalMcpClientManager in
/-- C4 (witness): the invariant evaluated on the reachable state left by
one successful connect, at its `connected` snapshot. -/
theorem c4_witness :
    ((snapW.tools.isSome ↔ snapW.status = .connected) ∧
     (snapW.prompts.isSome ↔ snapW.status = .connected) ∧
     (snapW.resources.isSome ↔ snapW.status = .connected)) ∧
    (snapW.status = .error → snapW.error.isSome) ∧
    (snapW.error.isSome → snapW.status = .error ∨ snapW.status = .disconnected) :=
  c4_theorem sW "a" snapW
    (Reachable.connectStep McpState.empty cfgA outcome1 Reachable.init) rfl

open Mcp GlobalMcpClientManager in
/-- C8: in every reachable registry state, each of `callTool`,
`getPrompt` and `readResource` invoked for an id whose status is not
`connected` fails with the not-connected error and returns the state
table unchanged; and for an id with a live client (equivalently, by the
invariant, a `connected` id) each is a pure pass-through of the remote
call that likewise leaves the table unchanged. -/
theorem c8_theorem (s : McpState) (id : String) (hr : Reachable s) :
    (getStatus s id ≠ .connected →
      (∀ toolName args, callTool s id toolName args
          = (s, .error ("Server " ++ id ++ " is not connected"))) ∧
      (∀ promptName args, getPrompt s id promptName args
          = (s, .error ("Server " ++ id ++ " is not connected"))) ∧
      (∀ uri, readResource s id uri
          = (s, .error ("Server " ++ id ++ " is not connected")))) ∧
    (∀ cc, s.clients id = some cc →
      getStatus s id = .connected ∧
      (∀ toolName args, callTool s id toolName args
          = (s, cc.client.callToolFn toolName args)) ∧
      (∀ promptName args, getPrompt s id promptName args
          = (s, cc.client.getPromptFn promptName args)) ∧
      (∀ uri, readResource s id uri = (s, cc.client.readResourceFn uri))) := by
  have h := reachable_inv s hr
  constructor
  · intro hnc
    have hcl : s.clients id = none := by
      cases hcs : s.clients id with
      | none => rfl
      | some cc =>
          exfalso
          have hsome : (s.states id).isSome := h.2 id (by rw [hcs]; rfl)
          rcases Option.isSome_iff_exists.mp hsome with ⟨st, hst⟩
          have hiff := (h.1 id st hst).2.2.2
          rw [hcs] at hiff
          have hcon : st.status = .connected := hiff.mp rfl
          apply hnc
          unfold getStatus
          rw [hst]
          exact hcon
    refine ⟨?_, ?_, ?_⟩
    · intro toolName args
      unfold callTool
      rw [hcl]
    · intro promptName args
      unfold getPrompt
      rw [hcl]
    · intro uri
      unfold readResource
      rw [hcl]
  · intro cc hcc
    have hsome : (s.states id).isSome := h.2 id (by rw [hcc]; rfl)
    rcases Option.isSome_iff_exists.mp hsome with ⟨st, hst⟩
    have hiff := (h.1 id st hst).2.2.2
    rw [hcc] at hiff
    have hcon : st.status = .connected := hiff.mp rfl
    refine ⟨?_, ?_, ?_, ?_⟩
    · unfold getStatus
      rw [hst]
      exact hcon
    · intro toolName args
      unfold callTool
      rw [hcc]
    · intro promptName args
      unfold getPrompt
      rw [hcc]
    · intro uri
      unfold readResource
      rw [hcc]

open Mcp GlobalMcpClientManager in
/-- C8 (witness): on the reachable state with `cfgA` connected, a call
against the unseen id `"z"` fails with the not-connected error and
leaves the table unchanged, and a call against `"a"` passes through to
the live client. -/
theorem c8_witness :
    callTool sW "z" "t" Json.null
        = (sW, .error ("Server " ++ "z" ++ " is not connected")) ∧
    callTool sW "a" "t" Json.null
        = (sW, bhvNone.callToolFn "t" Json.null) :=
  ⟨((c8_theorem sW "z"
        (Reachable.connectStep McpState.empty cfgA outcome1 Reachable.init)).1
      (by decide)).1 "t" Json.null,
   (((c8_theorem sW "a"
        (Reachable.connectStep McpState.empty cfgA outcome1 Reachable.init)).2
      ⟨bhvNone, .stdio, cfgA⟩ rfl).2.1) "t" Json.null⟩

open Mcp GlobalMcpClientManager in
/-- C7: when a connect actually runs (the id is not already connected),
the transport validates, the channel opens, tool and resource listing
succeed and prompt listing fails, `connect` still completes and stores a
`connected` snapshot with an empty prompts list and the tools and
resources exactly as fetched — never an error state. -/
theorem c7_theorem (s : McpState) (config : McpServerConfig) (o : ConnectOutcome)
    (ts : List ToolInfo) (rs : List ResourceInfo) (e : String)
    (hnotcon : isConnected s config.id = false)
    (hvalid : validateTransport config = .ok ())
    (hopen : o.openResult = .ok ())
    (htools : o.toolsResult = .ok ts)
    (hprompts : o.promptsResult = .error e)
    (hres : o.resourcesResult = .ok rs) :
    (connect s config o).2 =
      .ok { config := config, status := .connected, tools := some ts,
            prompts := some [], resources := some rs } ∧
    getState (connect s config o).1 config.id =
      some { config := config, status := .connected, tools := some ts,
             prompts := some [], resources := some rs } := by
  have hsnap : okSnap config o =
      { config := config, status := .connected, tools := some ts,
        prompts := some [], resources := some rs } := by
    unfold okSnap
    rw [htools, hprompts, hres]
    rfl
  have hbody : ∀ s' : McpState,
      (connectBody s' config o).2 = .ok (okSnap config o) ∧
      getState (connectBody s' config o).1 config.id = some (okSnap config o) := by
    intro s'
    constructor
    · rw [connectBody_snd, hvalid, hopen]
    · rw [connectBody_fst, hvalid, hopen]
      unfold getState
      exact setMap_self s'.states config.id (okSnap config o)
  unfold connect
  cases hcl : s.clients config.id with
  | none => rw [← hsnap]; exact hbody s
  | some cc =>
      cases hst : s.states config.id with
      | none => rw [← hsnap]; exact hbody (disconnect s config.id)
      | some existingState =>
          have hne : existingState.status ≠ .connected := by
            intro hcon
            unfold isConnected at hnotcon
            rw [hcl, hst] at hnotcon
            simp [hcon] at hnotcon
          rw [← hsnap]
          show ((if existingState.status = ConnectionStatus.connected
                then (s, Except.ok existingState)
                else connectBody (disconnect s config.id) config o).2
              = Except.ok (okSnap config o)) ∧
            (getState (if existingState.status = ConnectionStatus.connected
                then (s, Except.ok existingState)
                else connectBody (disconnect s config.id) config o).1 config.id
              = some (okSnap config o))
          rw [if_neg hne]
          exact hbody (disconnect s config.id)

open Mcp GlobalMcpClientManager in
/-- C7 (witness): connecting `cfgA` from the empty registry in an
environment whose prompt listing fails yields a `connected` snapshot
with empty prompts and the fetched tool and resource lists. -/
theorem c7_witness :
    (connect McpState.empty cfgA outcomePF).2 =
      .ok { config := cfgA, status := .connected, tools := some [toolA],
            prompts := some [], resources := some [resA] } ∧
    getState (connect McpState.empty cfgA outcomePF).1 "a" =
      some { config := cfgA, status := .connected, tools := some [toolA],
             prompts := some [], resources := some [resA] } :=
  c7_theorem McpState.empty cfgA outcomePF [toolA] [resA] "prompts not supported"
    rfl rfl rfl rfl rfl rfl

namespace ChatRoute

/-- No event of the list is an `error` event. -/
def errFree (events : List StreamEvent) : Bool :=
  events.all (fun ev => !ev.isError)

theorem errFree_textEventsOf (content : List ContentBlock) :
    errFree (textEventsOf content) = true := by
  unfold errFree textEventsOf
  rw [List.all_eq_true]
  intro ev hev
  rcases List.mem_filterMap.mp hev with ⟨block, _, hb⟩
  cases block with
  | text t =>
      dsimp only at hb
      by_cases ht : t = ""
      · rw [if_pos ht] at hb
        cases hb
      · rw [if_neg ht] at hb
        cases hb
        rfl
  | toolUse id name input =>
      dsimp only at hb
      cases hb

theorem errFree_processToolUses (s : Mcp.McpState) :
    ∀ blocks, errFree (processToolUses s blocks).1 = true := by
  intro blocks
  induction blocks with
  | nil => rfl
  | cons b rest ih =>
      rcases b with ⟨blockId, name, input⟩
      rcases hrec : processToolUses s rest with ⟨events, results, aborted⟩
      rw [hrec] at ih
      unfold processToolUses
      cases hex : executeMcpTool s name input with
      | error e => rfl
      | ok toolResult =>
          rw [hrec]
          dsimp only
          unfold errFree at ih ⊢
          rw [List.all_cons, List.all_cons, ih]
          rfl

end ChatRoute

open Mcp ChatRoute in
/-- C3 (counterexample): with no Anthropic credential configured, the
handler throws before any stream is created; the `POST` handler answers
the thrown message as an HTTP 500 JSON body.  No stream exists, so no
`error` event is emitted — the claim's "emits exactly one error event"
fails for the missing-credential case. -/
theorem c3_counterexample :
    handleClaudeChat none [("user", "hi")] [] true McpState.empty
        (fun _ _ => .error "unused") 1
      = .error "Anthropic API key not configured" := rfl

open Mcp ChatRoute in
/-- C3 (amended): once the Claude stream is running, every completed run
of the turn loop either emits no `error` event at all, or ends in exactly
one `error` event with no event — in particular no `text` event — after
it; everything emitted before the failure is preserved as the prefix.
Moreover a provider failure on the first call yields exactly the single
`error` event.  (A missing credential never reaches the stream: the
request fails before any event can be emitted.) -/
theorem c3_theorem (s : McpState)
    (provider : Option (List ClaudeTool) → List ClaudeMessage → Except String ClaudeResponse)
    (tools : Option (List ClaudeTool)) (origMsgs : List ClaudeMessage) :
    ∀ (fuel : Nat) (reqMsgs : List ClaudeMessage) (events : List StreamEvent),
      runClaudeTurns s provider tools origMsgs reqMsgs fuel = some events →
      (errFree events = true ∨
        ∃ pre e, events = pre ++ [StreamEvent.error e] ∧ errFree pre = true) ∧
      (∀ e, provider tools reqMsgs = .error e → events = [StreamEvent.error e]) := by
  intro fuel
  induction fuel with
  | zero =>
      intro reqMsgs events h
      cases h
  | succ f ih =>
      intro reqMsgs events h
      rw [runClaudeTurns] at h
      cases hp : provider tools reqMsgs with
      | error e =>
          rw [hp] at h
          dsimp only at h
          cases h
          constructor
          · exact Or.inr ⟨[], e, rfl, rfl⟩
          · intro e' he'
            cases he'
            rfl
      | ok response =>
          rw [hp] at h
          dsimp only at h
          refine ⟨?_, ?_⟩
          case refine_2 =>
            intro e' he'
            simp at he'
          case refine_1 =>
            by_cases htu : response.stopReasonToolUse = true
            · rw [if_pos htu] at h
              rcases hpt : processToolUses s (toolUseBlocksOf response.content) with
                ⟨toolEvents, toolResults, aborted⟩
              rw [hpt] at h
              have hef : errFree toolEvents = true := by
                have := errFree_processToolUses s (toolUseBlocksOf response.content)
                rw [hpt] at this
                exact this
              have htf : errFree (textEventsOf response.content) = true :=
                errFree_textEventsOf response.content
              cases aborted with
              | some e =>
                  dsimp only at h
                  cases h
                  refine Or.inr ⟨textEventsOf response.content ++ toolEvents, e, by simp, ?_⟩
                  unfold errFree at htf hef ⊢
                  rw [List.all_append, htf, hef]
                  rfl
              | none =>
                  dsimp only at h
                  rcases Option.map_eq_some'.mp h with ⟨innerEvents, hinner, hevents⟩
                  subst hevents
                  rcases (ih _ innerEvents hinner).1 with hok | ⟨pre, e, hpre, hprefree⟩
                  · left
                    unfold errFree at htf hef hok ⊢
                    rw [List.all_append, List.all_append, htf, hef, hok]
                    rfl
                  · right
                    refine ⟨textEventsOf response.content ++ toolEvents ++ pre, e, ?_, ?_⟩
                    · rw [hpre]
                      simp [List.append_assoc]
                    · unfold errFree at htf hef hprefree ⊢
                      rw [List.all_append, List.all_append, htf, hef, hprefree]
                      rfl
            · rw [if_neg htu] at h
              cases h
              exact Or.inl (errFree_textEventsOf response.content)

open Mcp ChatRoute in
/-- C3 (witness): a provider that fails immediately yields exactly the
single terminating `error` event. -/
theorem c3_witness :
    (errFree [StreamEvent.error "boom"] = true ∨
      ∃ pre e, [StreamEvent.error "boom"] = pre ++ [StreamEvent.error e] ∧
        errFree pre = true) ∧
    (∀ e, (fun (_ : Option (List ClaudeTool)) (_ : List ClaudeMessage) =>
        (Except.error "boom" : Except String ClaudeResponse)) none [] = .error e →
      [StreamEvent.error "boom"] = [StreamEvent.error e]) :=
  c3_theorem McpState.empty
    (fun _ _ => (Except.error "boom" : Except String ClaudeResponse)) none [] 1 []
    [StreamEvent.error "boom"] rfl

namespace ChatRoute

/-- The event shape the spec requires of one tool turn: for each
requested invocation, in order, a `tool_call` event immediately followed
by the matching `tool_result` event carrying the executed result. -/
def toolPairEvents (s : Mcp.McpState) :
    List (String × String × Json) → List StreamEvent
  | [] => []
  | (_, name, input) :: rest =>
      StreamEvent.toolCall (displayToolName name) input (displayServerId name) ::
      StreamEvent.toolResult (displayToolName name)
        ((executeMcpTool s name input).toOption.getD "") (displayServerId name) ::
      toolPairEvents s rest

/-- The provider-facing tool results accumulated over one tool turn. -/
def toolResultParams (s : Mcp.McpState) :
    List (String × String × Json) → List ToolResultParam
  | [] => []
  | (tid, name, input) :: rest =>
      ⟨tid, (executeMcpTool s name input).toOption.getD ""⟩ :: toolResultParams s rest

/-- When no invocation of the turn hits the malformed-identifier throw,
the loop body emits exactly the call/result pairs in order and
accumulates the matching provider-facing results, without aborting. -/
theorem processToolUses_ok (s : Mcp.McpState) :
    ∀ (blocks : List (String × String × Json)),
      (∀ b ∈ blocks, ∃ r, executeMcpTool s b.2.1 b.2.2 = Except.ok r) →
      processToolUses s blocks =
        (toolPairEvents s blocks, toolResultParams s blocks, none) := by
  intro blocks
  induction blocks with
  | nil => intro _; rfl
  | cons b rest ih =>
      intro hok
      rcases b with ⟨tid, name, input⟩
      rcases hok _ (List.mem_cons_self _ _) with ⟨r, hr⟩
      dsimp only at hr
      unfold processToolUses toolPairEvents toolResultParams
      rw [hr, ih (fun b hb => hok b (List.mem_cons_of_mem _ hb))]
      rfl

end ChatRoute

open Mcp ChatRoute in
/-- C1 (counterexample): the Gemini handler performs a single provider
call and, for a response requesting an invocation of `list_files`, emits
only the `tool_call` event: the invocation is never executed through the
bridge, no `tool_result` event follows, and no further provider turn
happens — refuting the claim for the Gemini provider. -/
theorem c1_counterexample :
    geminiStreamEvents (Except.ok
        { text := none
          functionCalls := [{ name := some "list_files", args := none }] })
      = [StreamEvent.toolCall "list_files" (Json.obj JsonFields.nil) "auto"] ∧
    (∀ ev ∈ [StreamEvent.toolCall "list_files" (Json.obj JsonFields.nil) "auto"],
      ev.isToolResult = false) := by
  refine ⟨rfl, ?_⟩
  intro ev hev
  rcases List.mem_singleton.mp hev with rfl
  rfl

open Mcp ChatRoute in
/-- C1 (amended, Claude): for every Claude provider turn whose response
requests tool invocations (and whose qualified identifiers are
well-formed), the turn emits the response's text first, then — for each
requested invocation in order — a `tool_call` event followed by its
`tool_result` event, resolving the invocations sequentially; the turn's
accumulated tool results are then sent back to the provider, appended to
the original history together with the assistant content, and the loop
continues on the remaining fuel. -/
theorem c1_theorem (s : McpState)
    (provider : Option (List ClaudeTool) → List ClaudeMessage → Except String ClaudeResponse)
    (tools : Option (List ClaudeTool)) (origMsgs reqMsgs : List ClaudeMessage)
    (fuel : Nat) (response : ClaudeResponse)
    (hresp : provider tools reqMsgs = .ok response)
    (htool : response.stopReasonToolUse = true)
    (hok : ∀ b ∈ toolUseBlocksOf response.content,
      ∃ r, executeMcpTool s b.2.1 b.2.2 = Except.ok r) :
    runClaudeTurns s provider tools origMsgs reqMsgs (fuel + 1) =
      (runClaudeTurns s provider tools origMsgs
          (origMsgs ++ [ClaudeMessage.assistantBlocks response.content,
            ClaudeMessage.userToolResults
              (toolResultParams s (toolUseBlocksOf response.content))]) fuel).map
        (fun events => textEventsOf response.content ++
          toolPairEvents s (toolUseBlocksOf response.content) ++ events) := by
  rw [runClaudeTurns, hresp]
  dsimp only
  rw [if_pos htool, processToolUses_ok s _ hok]

open ChatRoute in
/-- A Claude response with one text block and one `list_files` tool
invocation qualified with server id `srv`. -/
def respT : ClaudeResponse :=
  { content := [ContentBlock.text "calling",
      ContentBlock.toolUse "id1" "srv__list_files" (Json.obj JsonFields.nil)],
    stopReasonToolUse := true }

open ChatRoute in
/-- A final Claude response carrying only text. -/
def respF : ClaudeResponse :=
  { content := [ContentBlock.text "done"], stopReasonToolUse := false }

open ChatRoute in
/-- A provider trace: the original one-message history gets the tool-use
response, any longer resubmitted history gets the final text. -/
def providerW : Option (List ClaudeTool) → List ClaudeMessage →
    Except String ClaudeResponse :=
  fun _ msgs => if msgs.length ≤ 1 then .ok respT else .ok respF

open ChatRoute in
/-- The inbound one-message history of the witness run. -/
def msgsW : List ClaudeMessage := [ClaudeMessage.textMsg "user" "list files"]

open Mcp ChatRoute in
/-- C1 (witness): the concrete two-turn run: the tool turn unfolds to the
text event, the call/result pair, and the continuation on the history
extended with the turn's tool results. -/
theorem c1_witness :
    runClaudeTurns McpState.empty providerW none msgsW msgsW 2 =
      (runClaudeTurns McpState.empty providerW none msgsW
          (msgsW ++ [ClaudeMessage.assistantBlocks respT.content,
            ClaudeMessage.userToolResults
              (toolResultParams McpState.empty (toolUseBlocksOf respT.content))]) 1).map
        (fun events => textEventsOf respT.content ++
          toolPairEvents McpState.empty (toolUseBlocksOf respT.content) ++ events) :=
  c1_theorem McpState.empty providerW none msgsW msgsW 1 respT rfl rfl
    (by
      intro b hb
      have hb' : b = ("id1", "srv__list_files", Json.obj JsonFields.nil) := by
        simpa [toolUseBlocksOf, respT] using hb
      subst hb'
      exact ⟨"Error executing tool: Server srv is not connected", rfl⟩)

open Mcp McpContext in
/-- C9: the export of a stored config list is exactly the JSON array
document of that list (its text rendering being the platform
pretty-printer); re-importing the exported document replaces the stored
list with one whose elements recover each config id, name and
transport field exactly; and a parse failure, or any parsed value
that is not a JSON array, fails the whole operation with the
parse-failure error and leaves the stored list unchanged. -/
theorem c9_theorem (servers : List McpServerConfig) (current : List Json)
    (j : Json) (parseErr : String) :
    importConfig (.ok (exportConfig (servers.map configToJson))) current
        = (servers.map configToJson, .ok ()) ∧
    (∀ c ∈ servers,
      (configToJson c).getField "id" = some (Json.str c.id) ∧
      (configToJson c).getField "name" = some (Json.str c.name) ∧
      (configToJson c).getField "transport"
        = some (Json.str (transportString c.transport))) ∧
    (j.isArr = false →
      importConfig (.ok j) current = (current, .error "Failed to parse config")) ∧
    importConfig (.error parseErr) current
        = (current, .error "Failed to parse config") := by
  refine ⟨?_, ?_, ?_, ?_⟩
  · unfold importConfig exportConfig
    dsimp only
    rw [JsonList.toList_ofList]
  · intro c _
    refine ⟨rfl, rfl, rfl⟩
  · intro hj
    cases j <;> first
      | rfl
      | (exfalso; simp [Json.isArr] at hj)
  · rfl

open Mcp McpContext in
/-- C9 (witness): the round trip over a two-server list, plus the
rejection of a non-array document, at concrete values. -/
theorem c9_witness :
    importConfig (.ok (exportConfig ([cfgA, cfgC].map configToJson))) []
        = ([cfgA, cfgC].map configToJson, .ok ()) ∧
    (∀ c ∈ [cfgA, cfgC],
      (configToJson c).getField "id" = some (Json.str c.id) ∧
      (configToJson c).getField "name" = some (Json.str c.name) ∧
      (configToJson c).getField "transport"
        = some (Json.str (transportString c.transport))) ∧
    ((Json.str "nope").isArr = false →
      importConfig (.ok (Json.str "nope")) []
        = ([], .error "Failed to parse config")) ∧
    importConfig (.error "bad json") []
        = ([], .error "Failed to parse config") :=
  c9_theorem [cfgA, cfgC] [] (Json.str "nope") "bad json"
